import Mathlib

/-!
Verification development for the order-manager program (`order_manager.py`).

The program keeps two persisted JSON documents ("slots"): a pending-orders
file (`INPUT_FILE = "orders.json"`) and a completed-orders file
(`OUTPUT_FILE = "output_orders.json"`).  Orders are dictionaries with keys
`order_id`, `customer` and `items`; each item is a dictionary with keys
`name`, `price`, `quantity`.

The embedding below models:
  * orders and items as typed records (`Order`, `Item`);
  * JSON values as the inductive `JVal`; a persisted slot's state as
    `SlotContent` (absent file / blank content / malformed JSON /
    well-formed JSON value), which partitions the possible file states by
    how `open` + `json.loads` behave on them;
  * interactive input as a list of strings, one entry per `input()` call;
    an exhausted list models end-of-input (Python would raise `EOFError`);
  * Python string operations on ASCII text: `.strip()` as `pyStrip`,
    `.upper()` as `pyUpper`, `.isdigit()` / `int(...)` as the
    `pyIsDigit` / `pyStrToNat` / `pyParseInt` functions below.

All functions are pure: "does not mutate" claims hold by construction for
the embedding, and in-memory mutation of the Python lists is modelled by
returning the final list alongside the result.
-/

/-- One line item of an order: Python dict with keys
`name`, `price`, `quantity` (see `add_order`, line building
`{"name": name, "price": price, "quantity": quantity}`). -/
structure Item where
  name : String
  price : Int
  quantity : Int
deriving DecidableEq, Repr

/-- An order: Python dict with keys `order_id`, `customer`, `items`
(see `add_order`, `new_order = {...}`). -/
structure Order where
  order_id : String
  customer : String
  items : List Item
deriving DecidableEq, Repr

/-- Default order used for the (always in-bounds) `List.getD` access that
models `orders.pop(index)`. -/
def defaultOrder : Order := ⟨"", "", []⟩

/-- JSON values, as produced by Python's `json.loads`: null, booleans,
integers (the program only ever deals in integers), strings, arrays
(Python lists) and objects (Python dicts, insertion-ordered). -/
inductive JVal where
  | null : JVal
  | bool : Bool → JVal
  | int : Int → JVal
  | str : String → JVal
  | arr : List JVal → JVal
  | obj : List (String × JVal) → JVal

/-- Serialization of an item to its JSON object, with the key order of the
dict literal in `add_order`. -/
def encodeItem (it : Item) : JVal :=
  .obj [("name", .str it.name), ("price", .int it.price),
        ("quantity", .int it.quantity)]

/-- Serialization of an order to its JSON object, with the key order of the
dict literal in `add_order`. -/
def encodeOrder (o : Order) : JVal :=
  .obj [("order_id", .str o.order_id), ("customer", .str o.customer),
        ("items", .arr (o.items.map encodeItem))]

/-- The state of one persisted slot, partitioned by how
`open` + `read().strip()` + `json.loads` behave on it:
`missing` (the `open` call raises `FileNotFoundError`), `blank` (the file
content strips to the empty string), `corrupt` (non-blank content on which
`json.loads` raises `JSONDecodeError`), `wellFormed v` (non-blank content
that `json.loads` parses to the JSON value `v`). -/
inductive SlotContent where
  | missing : SlotContent
  | blank : SlotContent
  | corrupt : SlotContent
  | wellFormed : JVal → SlotContent

/-- The persistent state: the two slots `INPUT_FILE` (pending) and
`OUTPUT_FILE` (completed). -/
structure Disk where
  pending : SlotContent
  completed : SlotContent

/-- `load_data(filename)`: returns `[]` when the file is absent, its
content strips to empty, or `json.loads` raises `JSONDecodeError`;
otherwise returns whatever JSON value was parsed (the code performs no
structural check on the parsed value). -/
def load_data : SlotContent → JVal
  | .missing => .arr []
  | .blank => .arr []
  | .corrupt => .arr []
  | .wellFormed v => v

/-- `save_orders(filename, orders)`: `json.dump` of the given Python list
overwrites the slot with well-formed JSON serializing exactly that list
(`ensure_ascii=False, indent=4`; the textual indentation does not affect
the parsed value, so the slot is modelled by the value). -/
def save_orders (orders : List JVal) : SlotContent :=
  .wellFormed (.arr orders)

/-- How the program reads an item record back from JSON: dictionary
lookups `item["name"]`, `item["price"]`, `item["quantity"]`. -/
def decodeItem : JVal → Option Item
  | .obj fs =>
    match fs.lookup "name", fs.lookup "price", fs.lookup "quantity" with
    | some (.str n), some (.int p), some (.int q) => some ⟨n, p, q⟩
    | _, _, _ => none
  | _ => none

/-- Reading a list of item records back from JSON values, all of which
must be item records. -/
def decodeItems : List JVal → Option (List Item)
  | [] => some []
  | v :: rest =>
    match decodeItem v, decodeItems rest with
    | some it, some its => some (it :: its)
    | _, _ => none

/-- How the program reads an order record back from JSON: dictionary
lookups `order["order_id"]`, `order["customer"]`, `order["items"]`. -/
def decodeOrder : JVal → Option Order
  | .obj fs =>
    match fs.lookup "order_id", fs.lookup "customer", fs.lookup "items" with
    | some (.str oid), some (.str c), some (.arr its) =>
      match decodeItems its with
      | some items => some ⟨oid, c, items⟩
      | none => none
    | _, _, _ => none
  | _ => none

/-- Reading a list of order records back from JSON values, all of which
must be order records. -/
def decodeOrderList : List JVal → Option (List Order)
  | [] => some []
  | v :: rest =>
    match decodeOrder v, decodeOrderList rest with
    | some o, some os => some (o :: os)
    | _, _ => none

/-- Reading a whole persisted collection back: a JSON array each of whose
elements is an order record. -/
def decodeOrders : JVal → Option (List Order)
  | .arr l => decodeOrderList l
  | _ => none

/-- `calculate_order_total(order)`: Python
`sum(item["price"] * item["quantity"] for item in order["items"])` —
a left fold of `+` over the generator, starting from `0`. -/
def calculate_order_total (order : Order) : Int :=
  (order.items.map (fun item => item.price * item.quantity)).foldl (· + ·) 0

/-- Python `str.strip()` on ASCII text: drop leading and trailing
whitespace characters.  (Python strips a larger set of Unicode whitespace;
the model covers the ASCII fragment, on which the two agree.)  Built on
the character list so that it is kernel-reducible. -/
def pyStrip (s : String) : String :=
  ⟨((s.data.dropWhile Char.isWhitespace).reverse.dropWhile
      Char.isWhitespace).reverse⟩

/-- Python `str.upper()` on ASCII text: uppercase every character.
(Python uppercases beyond ASCII; the model covers the ASCII fragment, on
which the two agree.) -/
def pyUpper (s : String) : String :=
  ⟨s.data.map Char.toUpper⟩

/-- Value of a list of ASCII digit characters read left to right, as
Python's `int` computes it on an all-digit string. -/
def digitsToNat (cs : List Char) : Nat :=
  cs.foldl (fun a c => a * 10 + (c.toNat - 48)) 0

/-- Python `str.isdigit()` restricted to ASCII text: non-empty and every
character a decimal digit.  (Python additionally accepts some non-ASCII
digit characters; the model covers the ASCII fragment, on which the two
agree.) -/
def pyIsDigit (s : String) : Bool :=
  !s.data.isEmpty && s.data.all Char.isDigit

/-- Python `int(s)` on a string that satisfies `isdigit()`. -/
def pyStrToNat (s : String) : Nat :=
  digitsToNat s.data

/-- Python `int(s)` on already-stripped ASCII text: an optional sign
followed by at least one decimal digit; anything else raises `ValueError`,
modelled as `none`.  (Underscore-grouped and non-ASCII numerals are not
modelled.) -/
def pyParseInt (s : String) : Option Int :=
  match s.data with
  | [] => none
  | '+' :: rest =>
    if !rest.isEmpty && rest.all Char.isDigit then
      some (digitsToNat rest : Int)
    else none
  | '-' :: rest =>
    if !rest.isEmpty && rest.all Char.isDigit then
      some (-(digitsToNat rest : Int))
    else none
  | cs =>
    if cs.all Char.isDigit then some (digitsToNat cs : Int) else none

/-- The inner `while True` retry loop of `add_order` reading a price:
`input()` then `.strip()` then `int(...)`; a `ValueError` or a negative
value re-prompts, a valid non-negative integer breaks out of the loop.
`none` models the input being exhausted (Python: `EOFError`). -/
def readPrice : List String → Option (Int × List String)
  | [] => none
  | s :: rest =>
    match pyParseInt (pyStrip s) with
    | some p => if p < 0 then readPrice rest else some (p, rest)
    | none => readPrice rest

/-- The inner `while True` retry loop of `add_order` reading a quantity:
re-prompts on `ValueError` or a non-positive value. -/
def readQuantity : List String → Option (Int × List String)
  | [] => none
  | s :: rest =>
    match pyParseInt (pyStrip s) with
    | some q => if q ≤ 0 then readQuantity rest else some (q, rest)
    | none => readQuantity rest

theorem readPrice_length {l : List String} {p : Int} {l' : List String}
    (h : readPrice l = some (p, l')) : l'.length < l.length := by
  induction l with
  | nil => simp [readPrice] at h
  | cons s rest ih =>
    rw [readPrice] at h
    split at h
    · split at h
      · exact Nat.lt_trans (ih h) (Nat.lt_succ_self _)
      · cases h
        exact Nat.lt_succ_self _
    · exact Nat.lt_trans (ih h) (Nat.lt_succ_self _)

theorem readQuantity_length {l : List String} {q : Int} {l' : List String}
    (h : readQuantity l = some (q, l')) : l'.length < l.length := by
  induction l with
  | nil => simp [readQuantity] at h
  | cons s rest ih =>
    rw [readQuantity] at h
    split at h
    · split at h
      · exact Nat.lt_trans (ih h) (Nat.lt_succ_self _)
      · cases h
        exact Nat.lt_succ_self _
    · exact Nat.lt_trans (ih h) (Nat.lt_succ_self _)

/-- The outer `while True` item-collection loop of `add_order`: read a
name (stripped); an empty name breaks the loop, returning the items
accumulated so far and the unconsumed input; otherwise read a price and a
quantity through their retry loops and append the item.  `none` models the
input being exhausted mid-loop (Python: `EOFError`).

The first argument is structural-recursion fuel.  Every iteration of the
loop consumes at least one input entry (`readPrice_length`,
`readQuantity_length`), so with fuel at least the length of the input —
as in the `readItems` wrapper below — the fuel never runs out before the
input does (`readItemsAux_fuel_irrelevant`). -/
def readItemsAux : Nat → List String → List Item →
    Option (List Item × List String)
  | 0, _, _ => none
  | _ + 1, [], _ => none
  | fuel + 1, s :: rest, acc =>
    let name := pyStrip s
    if name = "" then some (acc, rest)
    else
      match readPrice rest with
      | none => none
      | some (p, rest2) =>
        match readQuantity rest2 with
        | none => none
        | some (q, rest3) =>
          readItemsAux fuel rest3 (acc ++ [⟨name, p, q⟩])

/-- The item-collection loop of `add_order` on a given input stream. -/
def readItems (input : List String) (acc : List Item) :
    Option (List Item × List String) :=
  readItemsAux input.length input acc

theorem readItemsAux_fuel_irrelevant :
    ∀ (n : Nat) (input : List String), input.length ≤ n →
      ∀ (fuel fuel' : Nat) (acc : List Item),
        input.length ≤ fuel → input.length ≤ fuel' →
        readItemsAux fuel input acc = readItemsAux fuel' input acc := by
  intro n
  induction n with
  | zero =>
    intro input hlen fuel fuel' acc _ _
    have : input = [] := List.length_eq_zero.mp (Nat.le_zero.mp hlen)
    subst this
    cases fuel <;> cases fuel' <;> rfl
  | succ n ih =>
    intro input hlen fuel fuel' acc hf hf'
    cases input with
    | nil => cases fuel <;> cases fuel' <;> rfl
    | cons s rest =>
      obtain ⟨f, rfl⟩ : ∃ f, fuel = f + 1 :=
        ⟨fuel - 1, by simp at hf; omega⟩
      obtain ⟨f', rfl⟩ : ∃ f', fuel' = f' + 1 :=
        ⟨fuel' - 1, by simp at hf'; omega⟩
      simp only [readItemsAux]
      by_cases hname : pyStrip s = ""
      · rw [if_pos hname, if_pos hname]
      · rw [if_neg hname, if_neg hname]
        split
        · rfl
        · rename_i p rest2 hp
          split
          · rfl
          · rename_i q rest3 hq
            have l1 := readPrice_length hp
            have l2 := readQuantity_length hq
            simp only [List.length_cons] at hlen hf hf'
            exact ih rest3 (by omega) f f' _ (by omega) (by omega)

/-- Outcome of `add_order` (which in Python is the returned message
string, while the orders list is mutated in place):
`dupErr oid` is the message for a duplicate order id, `noItemsErr` the
"at least one item required" message, `added oid` the success message, and
`eof` models `input()` raising `EOFError` on exhausted input. -/
inductive AddResult where
  | dupErr : String → AddResult
  | noItemsErr : AddResult
  | added : String → AddResult
  | eof : AddResult
deriving DecidableEq, Repr

/-- `add_order(orders)`: reads an order id (stripped, uppercased),
rejects it if some pending order already carries exactly that id, then
reads the customer name and the item loop; with zero accumulated items it
rejects, otherwise it appends the new order to `orders` and saves the
pending slot.  Returns the outcome together with the final in-memory
orders list and the final disk state. -/
def add_order (orders : List Order) (disk : Disk) (input : List String) :
    AddResult × List Order × Disk :=
  match input with
  | [] => (.eof, orders, disk)
  | rawId :: rest =>
    let order_id := pyUpper (pyStrip rawId)
    if orders.any (fun o => o.order_id = order_id) then
      (.dupErr order_id, orders, disk)
    else
      match rest with
      | [] => (.eof, orders, disk)
      | rawCust :: rest2 =>
        let customer := pyStrip rawCust
        match readItems rest2 [] with
        | none => (.eof, orders, disk)
        | some (items, _) =>
          if items.isEmpty then (.noItemsErr, orders, disk)
          else
            let newOrders := orders ++ [⟨order_id, customer, items⟩]
            (.added order_id, newOrders,
             { disk with pending := save_orders (newOrders.map encodeOrder) })

/-- Outcome of `process_order` (in Python, the returned
`(message, order-or-None)` pair): `nothingToDispatch` when `pending` is
empty, `cancelled` on an empty selection input, `dispatched msg o` on
success, `eof` when the input is exhausted mid-loop (Python: `EOFError`),
and `typeErr` when the completed slot loads to a non-list JSON value (the
subsequent `.append` raises in Python; nothing is saved). -/
inductive ProcResult where
  | nothingToDispatch : ProcResult
  | cancelled : ProcResult
  | dispatched : String → Order → ProcResult
  | eof : ProcResult
  | typeErr : ProcResult
deriving DecidableEq, Repr

/-- The `while True` selection loop of `process_order`: read a choice
(stripped); empty cancels; a non-digit or out-of-range choice re-prompts;
a valid choice pops the order at `int(choice) - 1`, appends it to the
freshly loaded completed list and saves both slots. -/
def processLoop (orders : List Order) (disk : Disk) :
    List String → ProcResult × List Order × Disk
  | [] => (.eof, orders, disk)
  | raw :: rest =>
    let choice := pyStrip raw
    if choice = "" then (.cancelled, orders, disk)
    else if !pyIsDigit choice ∨ pyStrToNat choice < 1
        ∨ orders.length < pyStrToNat choice then
      processLoop orders disk rest
    else
      let index := pyStrToNat choice - 1
      let order := orders.getD index defaultOrder
      let newPending := orders.eraseIdx index
      match load_data disk.completed with
      | .arr elems =>
        (.dispatched ("=> 訂單 " ++ order.order_id ++ " 已出餐完成") order,
         newPending,
         ⟨save_orders (newPending.map encodeOrder),
          save_orders (elems ++ [encodeOrder order])⟩)
      | _ => (.typeErr, newPending, disk)

/-- `process_order(orders)`: with an empty pending list, returns the
"nothing to dispatch" outcome before reading any input; otherwise runs the
selection loop. -/
def process_order (orders : List Order) (disk : Disk) (input : List String) :
    ProcResult × List Order × Disk :=
  if orders.isEmpty then (.nothingToDispatch, orders, disk)
  else processLoop orders disk input

theorem decodeItem_encodeItem (it : Item) :
    decodeItem (encodeItem it) = some it := rfl

theorem decodeItems_encodeItem (l : List Item) :
    decodeItems (l.map encodeItem) = some l := by
  induction l with
  | nil => rfl
  | cons it rest ih =>
    simp [decodeItems, ih, decodeItem_encodeItem]

theorem decodeOrder_encodeOrder (o : Order) :
    decodeOrder (encodeOrder o) = some o := by
  simp [decodeOrder, encodeOrder, List.lookup, decodeItems_encodeItem o.items]

theorem decodeOrderList_encodeOrder (l : List Order) :
    decodeOrderList (l.map encodeOrder) = some l := by
  induction l with
  | nil => rfl
  | cons o rest ih =>
    simp [decodeOrderList, ih, decodeOrder_encodeOrder]

/-- C4: for every order, `calculate_order_total` returns the sum over all
items of `price * quantity`, in exact integer arithmetic.  (The embedding
is a pure function, so the order is not mutated by construction.) -/
theorem calculate_order_total_spec (order : Order) :
    calculate_order_total order =
      (order.items.map (fun it => it.price * it.quantity)).sum := by
  simp [calculate_order_total, List.sum_eq_foldl]

/-- C5: saving a collection of order records with `save_orders` and then
loading that slot with `load_data` yields a document that reads back as
exactly the original collection — element order, fields and integer
values preserved. -/
theorem save_then_load_round_trip (l : List Order) :
    decodeOrders (load_data (save_orders (l.map encodeOrder))) = some l := by
  simp [load_data, save_orders, decodeOrders, decodeOrderList_encodeOrder]

/-- C3 counterexample: a persisted document that is valid JSON but not a
sequence of order records (here the JSON number `42`) is returned as
parsed by `load_data`, not replaced by the empty sequence, contradicting
the claim that every document failing to parse as the expected structure
loads as an empty sequence. -/
theorem load_data_not_list_counterexample :
    load_data (SlotContent.wellFormed (JVal.int 42)) = JVal.int 42 ∧
      JVal.int 42 ≠ JVal.arr [] :=
  ⟨rfl, fun h => JVal.noConfusion h⟩

/-- C3 (amended): `load_data` returns the empty sequence when the
persisted document is absent, empty/whitespace-only, or malformed JSON;
a document that parses as valid JSON is returned as parsed, even when it
is not a sequence of order records. -/
theorem load_data_soft_fail :
    load_data .missing = .arr [] ∧
    load_data .blank = .arr [] ∧
    load_data .corrupt = .arr [] ∧
    ∀ v, load_data (.wellFormed v) = v :=
  ⟨rfl, rfl, rfl, fun _ => rfl⟩

/-- C7: with an empty pending collection, `process_order` returns the
"nothing to dispatch" outcome whatever the interactive input is (so no
selection is read), and both the in-memory list and the disk are
unchanged. -/
theorem process_order_empty_pending (disk : Disk) (input : List String) :
    process_order [] disk input = (.nothingToDispatch, [], disk) := rfl

theorem pyIsDigit_ne_empty {t : String} (h : pyIsDigit t = true) : t ≠ "" := by
  intro he
  rw [he] at h
  exact absurd h (by decide)

theorem isEmpty_false_of_ne_nil {orders : List Order} (h : orders ≠ []) :
    orders.isEmpty = false := by
  cases orders with
  | nil => exact absurd rfl h
  | cons a as => rfl

theorem processLoop_dispatched
    {orders : List Order} {disk : Disk} {input : List String}
    {msg : String} {o : Order} {mem : List Order} {disk2 : Disk}
    (h : processLoop orders disk input = (.dispatched msg o, mem, disk2)) :
    ∃ k, 1 ≤ k ∧ k ≤ orders.length ∧
      o = orders.getD (k - 1) defaultOrder ∧
      mem = orders.eraseIdx (k - 1) ∧
      ∃ elems, load_data disk.completed = .arr elems ∧
        disk2 = ⟨save_orders (mem.map encodeOrder),
                 save_orders (elems ++ [encodeOrder o])⟩ := by
  induction input with
  | nil => simp [processLoop] at h
  | cons raw rest ih =>
    simp only [processLoop] at h
    by_cases hempty : pyStrip raw = ""
    · rw [if_pos hempty] at h
      simp at h
    · rw [if_neg hempty] at h
      by_cases hbad : (!pyIsDigit (pyStrip raw) ∨ pyStrToNat (pyStrip raw) < 1
          ∨ orders.length < pyStrToNat (pyStrip raw))
      · rw [if_pos hbad] at h
        exact ih h
      · rw [if_neg hbad] at h
        push_neg at hbad
        obtain ⟨hdig, h1, h2⟩ := hbad
        rcases hl : load_data disk.completed with _ | b | n | s | elems | fs <;>
          rw [hl] at h <;> simp only [Prod.mk.injEq] at h
        · exact absurd h.1 (by simp)
        · exact absurd h.1 (by simp)
        · exact absurd h.1 (by simp)
        · exact absurd h.1 (by simp)
        · obtain ⟨hro, hmem, hdisk⟩ := h
          obtain ⟨hmsg, ho⟩ := ProcResult.dispatched.inj hro
          refine ⟨pyStrToNat (pyStrip raw), by omega, by omega, ho.symm, hmem.symm,
            elems, rfl, ?_⟩
          rw [← hdisk, hmem, ho]
        · exact absurd h.1 (by simp)

/-- C8: with a non-empty pending list, an input whose first selection
entry strips to the empty string makes `process_order` return the
"cancelled" outcome with the in-memory pending list and both disk slots
unchanged — no partial mutation is observable. -/
theorem process_order_cancel_unchanged
    (orders : List Order) (disk : Disk) (raw : String) (rest : List String)
    (hne : orders ≠ []) (hblank : pyStrip raw = "") :
    process_order orders disk (raw :: rest) = (.cancelled, orders, disk) := by
  simp only [process_order, isEmpty_false_of_ne_nil hne, Bool.false_eq_true,
    if_false, processLoop]
  rw [if_pos hblank]

/-- C9: in `process_order`, one conjunct per half of the claim — a
selection entry that is non-empty but non-numeric or outside
`[1, len(pending)]` is consumed and the loop re-prompts on the remaining
input with nothing mutated (the whole call is equal to the call on the
remaining input); and whenever the loop does dispatch, the dispatched
order sits at a 1-based selection `k` within `[1, len(pending)]`, and the
in-memory list becomes the list with exactly index `k - 1` removed, so
the removal is in bounds when it executes. -/
theorem process_order_selection_validation :
    (∀ (orders : List Order) (disk : Disk) (bad : String)
        (rest : List String), orders ≠ [] → pyStrip bad ≠ "" →
        (!pyIsDigit (pyStrip bad) ∨ pyStrToNat (pyStrip bad) < 1
          ∨ orders.length < pyStrToNat (pyStrip bad)) →
        process_order orders disk (bad :: rest)
          = process_order orders disk rest)
    ∧ ∀ (orders : List Order) (disk : Disk) (input : List String)
        (msg : String) (o : Order) (mem : List Order) (disk2 : Disk),
        process_order orders disk input = (.dispatched msg o, mem, disk2) →
        ∃ k, 1 ≤ k ∧ k ≤ orders.length ∧
          o = orders.getD (k - 1) defaultOrder ∧
          mem = orders.eraseIdx (k - 1) := by
  constructor
  · intro orders disk bad rest hne hblank hbad
    simp only [process_order, isEmpty_false_of_ne_nil hne, Bool.false_eq_true,
      if_false]
    conv_lhs => rw [processLoop]
    rw [if_neg hblank, if_pos hbad]
  · intro orders disk input msg o mem disk2 h
    rw [process_order] at h
    by_cases hempty : orders.isEmpty
    · rw [if_pos hempty] at h
      simp at h
    · rw [if_neg hempty] at h
      obtain ⟨k, hk1, hk2, ho, hmem, _⟩ := processLoop_dispatched h
      exact ⟨k, hk1, hk2, ho, hmem⟩

/-- C10: whenever `process_order` dispatches an order, the completed
document it persists is built from the completed collection freshly
loaded from the completed slot during the operation, with the dispatched
order appended; `process_order` takes no in-memory completed collection
as a parameter, so any completed state held by the caller is ignored. -/
theorem process_order_completed_from_store
    (orders : List Order) (disk : Disk) (input : List String)
    (msg : String) (o : Order) (mem : List Order) (disk2 : Disk)
    (h : process_order orders disk input = (.dispatched msg o, mem, disk2)) :
    ∃ elems, load_data disk.completed = .arr elems ∧
      disk2.completed = save_orders (elems ++ [encodeOrder o]) := by
  rw [process_order] at h
  by_cases hempty : orders.isEmpty
  · rw [if_pos hempty] at h
    simp at h
  · rw [if_neg hempty] at h
    obtain ⟨k, _, _, _, _, elems, hl, hdisk⟩ := processLoop_dispatched h
    exact ⟨elems, hl, by rw [hdisk]⟩

/-- C1: dispatching a valid selection `k` in `[1, len(pending)]` (given
as any input string that strips to the decimal numeral of `k`) removes
exactly the `k`-th order from the pending list, appends that order's
record unchanged to the freshly loaded completed document, persists both
slots within the same call, and keeps the total number of stored orders
invariant. -/
theorem process_order_dispatch_spec
    (orders : List Order) (disk : Disk) (s : String) (elems : List JVal)
    (k : Nat)
    (hdig : pyIsDigit (pyStrip s) = true)
    (hval : pyStrToNat (pyStrip s) = k)
    (h1 : 1 ≤ k) (h2 : k ≤ orders.length)
    (hload : load_data disk.completed = .arr elems) :
    process_order orders disk [s] =
      (.dispatched ("=> 訂單 " ++ (orders.getD (k - 1) defaultOrder).order_id
           ++ " 已出餐完成")
         (orders.getD (k - 1) defaultOrder),
       orders.eraseIdx (k - 1),
       ⟨save_orders ((orders.eraseIdx (k - 1)).map encodeOrder),
        save_orders (elems ++ [encodeOrder (orders.getD (k - 1) defaultOrder)])⟩)
    ∧ (orders.eraseIdx (k - 1)).length
        + (elems ++ [encodeOrder (orders.getD (k - 1) defaultOrder)]).length
        = orders.length + elems.length := by
  subst hval
  have hne : orders ≠ [] := by
    intro hnil
    rw [hnil] at h2
    simp at h2
    omega
  constructor
  · simp only [process_order, isEmpty_false_of_ne_nil hne, Bool.false_eq_true,
      if_false]
    rw [processLoop]
    rw [if_neg (pyIsDigit_ne_empty hdig)]
    rw [if_neg (by simp [hdig]; omega)]
    simp only [hload]
  · have hlt : pyStrToNat (pyStrip s) - 1 < orders.length := by omega
    simp [List.length_eraseIdx_of_lt hlt]
    omega

/-- C2 (amended): `add_order` rejects with the duplicate-order-id error —
creating nothing and leaving the pending collection unchanged in memory
and on disk — whenever the candidate id, trimmed and uppercased, is
exactly equal to some pending order's stored `order_id`.  (For stored ids
that are uppercase, as all ids created by `add_order` are, this coincides
with a case-insensitive match; see the counterexample for a non-uppercase
stored id.) -/
theorem add_order_duplicate_reject
    (orders : List Order) (disk : Disk) (rawId : String)
    (rest : List String)
    (hdup : orders.any (fun o => o.order_id = pyUpper (pyStrip rawId)) = true) :
    add_order orders disk (rawId :: rest) =
      (.dupErr (pyUpper (pyStrip rawId)), orders, disk) := by
  simp only [add_order]
  rw [if_pos hdup]

/-- C6: when the duplicate check passes and the item-collection loop ends
with zero accumulated items, `add_order` rejects with the "no items"
failure and leaves the pending collection unchanged in memory and on
disk. -/
theorem add_order_no_items_reject
    (orders : List Order) (disk : Disk) (rawId rawCust : String)
    (rest leftover : List String)
    (hnd : orders.any (fun o => o.order_id = pyUpper (pyStrip rawId)) = false)
    (hitems : readItems rest [] = some ([], leftover)) :
    add_order orders disk (rawId :: rawCust :: rest) =
      (.noItemsErr, orders, disk) := by
  simp only [add_order]
  rw [if_neg (by simp [hnd])]
  rw [hitems]
  rfl

/-- Concrete fixture: a pending collection holding one order whose stored
id is not uppercase — reachable, since `load_data` performs no validation
of stored ids. -/
def ordersLower : List Order := [⟨"a1", "Bob", [⟨"Cake", 100, 2⟩]⟩]

/-- Concrete fixture: disk state whose pending slot holds `ordersLower`
and whose completed slot is an absent file. -/
def diskLower : Disk := ⟨save_orders (ordersLower.map encodeOrder), .missing⟩

/-- Concrete fixture: the collection `ordersLower` with the order created
by the C2 counterexample run appended. -/
def ordersLowerAfter : List Order :=
  ordersLower ++ [⟨"A1", "Alice", [⟨"Tea", 5, 1⟩]⟩]

/-- C2 counterexample: with the stored id `"a1"`, the candidate `"a1"`
normalizes to `"A1"`, which matches `"a1"` case-insensitively — yet
`add_order` does not reject: it creates the order and changes the pending
collection in memory and on disk, because the code compares the
normalized candidate to stored ids by exact string equality. -/
theorem add_order_duplicate_case_counterexample :
    (pyUpper (pyStrip "a1") = "A1" ∧ pyUpper "a1" = "A1")
    ∧ add_order ordersLower diskLower ["a1", "Alice", "Tea", "5", "1", ""]
        = (.added "A1", ordersLowerAfter,
           ⟨save_orders (ordersLowerAfter.map encodeOrder), .missing⟩)
    ∧ ordersLowerAfter ≠ ordersLower := by
  refine ⟨⟨by decide, by decide⟩, by rfl, by decide⟩

/-- Concrete fixture: a pending collection with one uppercase stored id,
as `add_order` itself creates them. -/
def ordersUpper : List Order := [⟨"A1", "Bob", [⟨"Cake", 100, 2⟩]⟩]

/-- C1 witness: dispatching selection 1 from a one-order pending
collection with an absent completed slot. -/
theorem process_order_dispatch_spec_witness :
    process_order ordersLower diskLower ["1"] =
      (.dispatched ("=> 訂單 "
           ++ (ordersLower.getD (1 - 1) defaultOrder).order_id
           ++ " 已出餐完成")
         (ordersLower.getD (1 - 1) defaultOrder),
       ordersLower.eraseIdx (1 - 1),
       ⟨save_orders ((ordersLower.eraseIdx (1 - 1)).map encodeOrder),
        save_orders ([]
          ++ [encodeOrder (ordersLower.getD (1 - 1) defaultOrder)])⟩)
    ∧ (ordersLower.eraseIdx (1 - 1)).length
        + ([] ++ [encodeOrder (ordersLower.getD (1 - 1) defaultOrder)]).length
        = ordersLower.length + ([] : List JVal).length :=
  process_order_dispatch_spec ordersLower diskLower "1" [] 1
    (by decide) (by decide) (by decide) (by decide) rfl

/-- C8 witness: a whitespace-only selection entry cancels the dispatch
and leaves the concrete state unchanged. -/
theorem process_order_cancel_unchanged_witness :
    process_order ordersLower diskLower [" ", "1"]
      = (.cancelled, ordersLower, diskLower) :=
  process_order_cancel_unchanged ordersLower diskLower " " ["1"]
    (by decide) (by decide)

/-- C9 witness: the out-of-range selection `"7"` is consumed without
effect, and the concrete dispatch of `"1"` selects index 1 of a one-order
collection. -/
theorem process_order_selection_validation_witness :
    process_order ordersLower diskLower ["7", "1"]
      = process_order ordersLower diskLower ["1"]
    ∧ ∃ k, 1 ≤ k ∧ k ≤ ordersLower.length ∧
        ordersLower.getD 0 defaultOrder
          = ordersLower.getD (k - 1) defaultOrder ∧
        ordersLower.eraseIdx 0 = ordersLower.eraseIdx (k - 1) :=
  ⟨process_order_selection_validation.1 ordersLower diskLower "7" ["1"]
      (by decide) (by decide) (by decide),
   process_order_selection_validation.2 ordersLower diskLower ["1"] _ _ _ _
      rfl⟩

/-- C10 witness: on the concrete dispatch of `"1"`, the persisted
completed document is the (empty) loaded completed collection with the
dispatched order's record appended. -/
theorem process_order_completed_from_store_witness :
    ∃ elems, load_data diskLower.completed = .arr elems ∧
      save_orders ([] ++ [encodeOrder (ordersLower.getD 0 defaultOrder)])
        = save_orders (elems
            ++ [encodeOrder (ordersLower.getD 0 defaultOrder)]) :=
  process_order_completed_from_store ordersLower diskLower ["1"] _ _ _ _ rfl

/-- C2 witness: the candidate `" a1 "` normalizes to `"A1"`, which is
exactly a stored id, so the add is rejected with the duplicate error and
nothing changes. -/
theorem add_order_duplicate_reject_witness :
    add_order ordersUpper diskLower [" a1 ", "Alice"]
      = (.dupErr (pyUpper (pyStrip " a1 ")), ordersUpper, diskLower) :=
  add_order_duplicate_reject ordersUpper diskLower " a1 " ["Alice"]
    (by decide)

/-- C6 witness: an immediately blank item name ends collection with zero
items, so the add is rejected with the "no items" failure and nothing
changes. -/
theorem add_order_no_items_reject_witness :
    add_order ordersUpper diskLower ["B2", "Alice", " "]
      = (.noItemsErr, ordersUpper, diskLower) :=
  add_order_no_items_reject ordersUpper diskLower "B2" "Alice" [" "] []
    (by decide) (by decide)
